import Mathlib

/-!
Verification of the agent-facing command dispatch and aggregation layer of the
whatsapp-go-mcp repository: the `OptimizedHandlerV2` MCP handler (normalizePhone,
handleSend with idempotency cache and per-recipient batch loop, createResponse /
createError envelopes, the handleChats action dispatch) and the `serviceChat.ListChats`
chat-aggregation use case.

Strings are modelled as `List Char`.  Go's `map[string]T` is modelled as an
association list with overwrite-on-insert semantics; iteration order of Go maps is
unspecified, so the model fixes one linearization (insertion order) — no theorem
below depends on the order.  Opaque effects (uuid generation, `time.Now()`) are
abstracted into a single `now : Nat` supplied by the collaborator environment.
A Go runtime panic (a failed type assertion such as `args["kind"].(string)`) is
modelled as the `none` result of an `Option`.
-/

/-- Strings of the Go program, modelled as lists of characters. -/
abbrev Str := List Char

/-- Go `strings.ToLower` (the inputs of interest are ASCII). -/
def lowerStr (s : Str) : Str := s.map Char.toLower

/-- Go `strings.HasPrefix s pre`. -/
def strHasPre (s pre : Str) : Bool := pre.isPrefixOf s

/-- Go `strings.TrimPrefix s pre`. -/
def trimPre (s pre : Str) : Str :=
  if strHasPre s pre then s.drop pre.length else s

/-- Go `strings.Contains s sub`: `sub` occurs as a contiguous substring of `s`. -/
def strContains (s sub : Str) : Bool := decide (sub <:+: s)

/-- `normalizePhone` (part_002 lines 102-123).  The regular expression `[^\d]`
is replaced by the empty string, i.e. all non-digit characters are removed;
then the three conditionals of the source follow in source order. -/
def normalizePhone (phone : Str) : Str :=
  let cleaned := phone.filter Char.isDigit
  if 10 < cleaned.length ∧ strHasPre phone ['+'] = false then '+' :: cleaned
  else if cleaned.length = 10 ∧ strHasPre cleaned ['1'] = false then '+' :: '1' :: cleaned
  else if strHasPre phone ['+'] = true then phone
  else '+' :: cleaned

/-- The spec's normalizePhone algorithm, written from the spec's words (claim C2):
strip non-digits; if the original starts with `+`, return it unchanged; else if the
digit count exceeds 10, prefix `+`; else if the digit count is exactly 10, prefix
`+1`; otherwise prefix `+`. -/
def normalizePhoneClaimed (phone : Str) : Str :=
  let cleaned := phone.filter Char.isDigit
  if strHasPre phone ['+'] = true then phone
  else if 10 < cleaned.length then '+' :: cleaned
  else if cleaned.length = 10 then '+' :: '1' :: cleaned
  else '+' :: cleaned

/-- The amended normalizePhone contract (what the source actually computes),
stated independently of the source's branch order: if there are exactly 10 digits
and they do not start with `1`, return `+1` followed by the digits (even when the
original starts with `+`); otherwise, if the original starts with `+`, return it
unchanged; otherwise return `+` followed by the digits. -/
def normalizePhoneAmended (phone : Str) : Str :=
  let digits := phone.filter Char.isDigit
  if digits.length = 10 ∧ strHasPre digits ['1'] = false then '+' :: '1' :: digits
  else if strHasPre phone ['+'] = true then phone
  else '+' :: digits

/-! ## Dynamic tool arguments

`request.GetArguments()` yields a `map[string]interface{}`; a parameter is either
absent (`Option.none`) or carries a dynamically typed value.  A Go type assertion
without the comma-ok form (`v.(string)`, `v.([]interface{})`, …) panics when the
value is absent or of another type; the comma-ok form yields a zero value instead. -/

/-- A dynamically typed argument value (`interface{}`). -/
inductive GoVal where
  | str (s : Str)
  | boolean (b : Bool)
  | arr (xs : List GoVal)
  | obj (fields : List (Str × GoVal))
  | other

/-- The arguments read by `handleSend` (part_002 lines 356-497).  The `batch`
parameter is declared in the tool schema but never read by the handler, so it is
omitted.  Payload-only parameters (`content`, `media_url`, …) are kept because
their type assertions can panic. -/
structure SendArgs where
  recipients : Option GoVal := none
  kind : Option GoVal := none
  content : Option GoVal := none
  media_url : Option GoVal := none
  link_url : Option GoVal := none
  location : Option GoVal := none
  contact : Option GoVal := none
  check_and_format : Option GoVal := none
  idempotency_key : Option GoVal := none

/-- Type assertion `.(string)`: `none` models the panic. -/
def asStr : Option GoVal → Option Str
  | some (GoVal.str s) => some s
  | _ => none

/-- Type assertion `.(map[string]interface{})`: `none` models the panic. -/
def asObj : Option GoVal → Option (List (Str × GoVal))
  | some (GoVal.obj fs) => some fs
  | _ => none

/-- Element-wise `r.(string)` over `[]interface{}` (the loop at part_002
lines 361-364 panics on the first non-string element). -/
def allStr : List GoVal → Option (List Str)
  | [] => some []
  | GoVal.str s :: rest =>
      match allStr rest with
      | some l => some (s :: l)
      | none => none
  | _ => none

/-- `args["recipients"].([]interface{})` followed by the element assertions. -/
def asStrList (v : Option GoVal) : Option (List Str) :=
  match v with
  | some (GoVal.arr xs) => allStr xs
  | _ => none

/-- Go map lookup inside an `obj` value (missing key yields `nil`, hence `none`). -/
def objGet (fs : List (Str × GoVal)) (k : Str) : Option GoVal :=
  match fs with
  | [] => none
  | (k0, v) :: rest => if k0 = k then some v else objGet rest k

/-! ## Process-wide handler state and collaborators -/

/-- The cached representative result (`SendResult`, part_002 lines 63-68).  The Go
struct also carries a freshly generated `MessageID` uuid; uuid generation is opaque
and not observed by any claim, so it is abstracted away.  `Error` is always empty
at the single store site (line 488-492) and is kept for completeness. -/
structure SendResult where
  status : Str
  timestamp : Nat
  err : Str := []
deriving DecidableEq

/-- Association-list model of a Go `map`, with overwrite-on-insert. -/
def mapInsert {α : Type} : List (Str × α) → Str → α → List (Str × α)
  | [], k, v => [(k, v)]
  | (k0, v0) :: rest, k, v =>
      if k0 = k then (k, v) :: rest else (k0, v0) :: mapInsert rest k v

/-- Go map lookup. -/
def mapLookup {α : Type} : List (Str × α) → Str → Option α
  | [], _ => none
  | (k0, v0) :: rest, k => if k0 = k then some v0 else mapLookup rest k

/-- The idempotency cache `map[string]*SendResult`. -/
abbrev Cache := List (Str × SendResult)

/-- One entry of `groups.Data` as consumed by the resolution loop
(part_002 lines 403-409): the group JID rendered as a string and the group name. -/
structure GroupInfo where
  jid : Str
  name : Str
deriving DecidableEq

/-- The external collaborators used by `handleSend`, modelled as pure functions:
`userService.MyListGroups`, `userService.IsOnWhatsApp` and the per-kind
`sendService.Send*` family (collapsed into one function of the kind and the
resolved target; the message payload is not observed by any claim).  `now`
abstracts `time.Now()`. -/
structure Collab where
  myListGroups : Except Str (List GroupInfo)
  isOnWhatsApp : Str → Except Str Bool
  send : Str → Str → Except Str Unit
  now : Nat

/-- Trace entry for one call into an external collaborator. -/
inductive ExtCall where
  | listGroups
  | checkOnWhatsApp (phone : Str)
  | send (kind : Str) (target : Str)
deriving DecidableEq

/-- `ErrorDetail` (part_002 lines 52-56). -/
structure ErrorDetail where
  code : Str
  message : Str
  detail : Str
deriving DecidableEq

/-- `RateLimitInfo` (part_002 lines 58-61). -/
structure RateLimitInfo where
  remaining : Int
  reset : Int
deriving DecidableEq

/-- `StandardResponse` (part_002 lines 42-50), generic in the shape of the
`data` map actually written by the handler under verification. -/
structure StandardResponse (α : Type) where
  tool : Str
  action : Str
  status : Str
  data : Option α := none
  error : Option ErrorDetail := none
  rateLimit : Option RateLimitInfo := none
deriving DecidableEq

/-- The process-wide mutable state of `OptimizedHandlerV2` (part_002 lines 25-39):
the idempotency cache and the informational rate-limit counters (the counters are
initialized to 500 / now+1h and never modified by any handler). -/
structure Handler where
  idempotencyCache : Cache
  rateLimitRemaining : Int
  rateLimitReset : Int
deriving DecidableEq

/-- `createResponse` (part_002 lines 126-143): rate-limit info is attached when
`rateLimitRemaining > 0`. -/
def createResponse {α : Type} (h : Handler) (tool action status : Str) (data : α) :
    StandardResponse α :=
  { tool := tool, action := action, status := status, data := some data,
    error := none,
    rateLimit :=
      if 0 < h.rateLimitRemaining then
        some { remaining := h.rateLimitRemaining, reset := h.rateLimitReset }
      else none }

/-- `createError` (part_002 lines 146-157): status is `error`, the error detail is
filled in, and — unlike `createResponse` — no rate-limit info is attached. -/
def createError {α : Type} (tool action code message detail : Str) :
    StandardResponse α :=
  { tool := tool, action := action, status := "error".toList, data := none,
    error := some { code := code, message := message, detail := detail },
    rateLimit := none }

/-! ## The batch send handler -/

/-- The per-recipient result map built by the loop (part_002 lines 393-497):
keys written are `to` (modelled as `toTarget`), optionally `resolved_to` / `group_name` / `normalized`,
then `status` plus either `error` or `timestamp`. -/
structure SendOutcome where
  toTarget : Str
  resolvedTo : Option Str := none
  groupName : Option Str := none
  normalized : Option Str := none
  status : Str := []
  errMsg : Option Str := none
  timestamp : Option Nat := none
deriving DecidableEq

/-- The `data` map of a `whatsapp_send` response: either the batch aggregation
(`requested` / `sent` / `failed` / `results`, lines 506-511) or the cache-hit
payload (`cached: true` together with `results: [cached]`, lines 373-376). -/
inductive SendData where
  | batch (requested sent failed : Nat) (results : List SendOutcome)
  | cachedHit (cached : SendResult)
deriving DecidableEq

/-- Result of the `name:` resolution step for one recipient
(part_002 lines 398-412). -/
structure Resolved where
  target : Str
  resolvedTo : Option Str := none
  groupName : Option Str := none
  calls : List ExtCall := []

/-- Group-name resolution (part_002 lines 398-412): when the recipient starts with
`name:`, strip the tag and call `MyListGroups`; on success take the first group
whose lowercased name contains the lowercased query; on a directory error, or when
no group matches, the recipient is left unchanged and no failure is recorded. -/
def resolveGroupRef (env : Collab) (r : Str) : Resolved :=
  if strHasPre r "name:".toList then
    let groupName := trimPre r "name:".toList
    match env.myListGroups with
    | Except.error _ => { target := r, calls := [ExtCall.listGroups] }
    | Except.ok groups =>
        match groups.find? (fun g => strContains (lowerStr g.name) (lowerStr groupName)) with
        | some g =>
            { target := g.jid, resolvedTo := some g.jid, groupName := some g.name,
              calls := [ExtCall.listGroups] }
        | none => { target := r, calls := [ExtCall.listGroups] }
  else { target := r }

/-- The `switch kind` dispatch (part_002 lines 431-475).  Each supported kind first
asserts its payload parameters (`none` = panic) and then calls the send collaborator;
an unsupported kind produces the `unsupported kind: <kind>` error without any
collaborator call.  For `location`, `loc["lat"]`/`loc["lng"]` go through
`fmt.Sprintf("%v", ...)`, which never panics. -/
def doSend (env : Collab) (args : SendArgs) (kind target : Str) :
    Option (Except Str Unit × List ExtCall) :=
  if kind = "text".toList then
    some (env.send kind target, [ExtCall.send kind target])
  else if kind = "image".toList then
    match asStr args.media_url with
    | none => none
    | some _ => some (env.send kind target, [ExtCall.send kind target])
  else if kind = "link".toList then
    match asStr args.link_url with
    | none => none
    | some _ => some (env.send kind target, [ExtCall.send kind target])
  else if kind = "location".toList then
    match asObj args.location with
    | none => none
    | some _ => some (env.send kind target, [ExtCall.send kind target])
  else if kind = "contact".toList then
    match asObj args.contact with
    | none => none
    | some ci =>
        match asStr (objGet ci "name".toList), asStr (objGet ci "phone".toList) with
        | some _, some _ => some (env.send kind target, [ExtCall.send kind target])
        | _, _ => none
  else
    some (Except.error ("unsupported kind: ".toList ++ kind), [])

/-- The outcome record before its status fields are filled in. -/
def baseOutcome (r : Str) (rv : Resolved) (normalized : Option Str) : SendOutcome :=
  { toTarget := r, resolvedTo := rv.resolvedTo, groupName := rv.groupName,
    normalized := normalized }

/-- The send step at the end of one loop iteration (part_002 lines 430-495 minus
the cache write): record `sent`+timestamp or `failed`+error message.  The returned
`Bool` is whether the send succeeded. -/
def finishSend (env : Collab) (args : SendArgs) (kind r : Str) (rv : Resolved)
    (normalized : Option Str) (target : Str) (calls : List ExtCall) :
    Option (SendOutcome × Bool) × List ExtCall :=
  match doSend env args kind target with
  | none => (none, calls)
  | some (Except.error msg, c2) =>
      (some ({ baseOutcome r rv normalized with
                 status := "failed".toList, errMsg := some msg }, false), calls ++ c2)
  | some (Except.ok _, c2) =>
      (some ({ baseOutcome r rv normalized with
                 status := "sent".toList, timestamp := some env.now }, true), calls ++ c2)

/-- One iteration of the recipient loop (part_002 lines 393-497, except the
idempotency-cache write, which `sendLoop` performs): resolve a `name:` reference,
then — when `check_and_format` is on and the target contains no `@` — normalize
the phone and check registration (`not_on_whatsapp` outcome on error or a negative
answer), and finally dispatch the send. -/
def processOne (env : Collab) (args : SendArgs) (kind : Str) (caf : Bool) (r : Str) :
    Option (SendOutcome × Bool) × List ExtCall :=
  let rv := resolveGroupRef env r
  if caf = true ∧ strContains rv.target ['@'] = false then
    let p := normalizePhone rv.target
    let calls := rv.calls ++ [ExtCall.checkOnWhatsApp p]
    match env.isOnWhatsApp p with
    | Except.error _ =>
        (some ({ baseOutcome r rv (some p) with
                   status := "not_on_whatsapp".toList,
                   errMsg := some "Recipient not on WhatsApp".toList }, false), calls)
    | Except.ok onWA =>
        if onWA = false then
          (some ({ baseOutcome r rv (some p) with
                     status := "not_on_whatsapp".toList,
                     errMsg := some "Recipient not on WhatsApp".toList }, false), calls)
        else finishSend env args kind r rv (some p) p calls
  else finishSend env args kind r rv none rv.target rv.calls

/-- `if idempKey, ok := args["idempotency_key"].(string); ok && idempKey != ""`:
the idempotency key is active only when supplied as a non-empty string. -/
def idempKeyOf (args : SendArgs) : Option Str :=
  match args.idempotency_key with
  | some (GoVal.str k) => if k = [] then none else some k
  | _ => none

/-- The recipient loop (part_002 lines 388-497): one outcome per recipient in
input order; a successful send stores the representative `SendResult` with status
`sent` under the active idempotency key (failures store nothing).  Returns
(outcomes, sent count, failed count) — `none` when an iteration panicked —
together with the cache state and the collaborator-call trace accumulated up to
the end (or up to the panic). -/
def sendLoop (env : Collab) (args : SendArgs) (kind : Str) (caf : Bool)
    (idempKey : Option Str) :
    List Str → Cache → Option (List SendOutcome × Nat × Nat) × Cache × List ExtCall
  | [], cache => (some ([], 0, 0), cache, [])
  | r :: rest, cache =>
      match processOne env args kind caf r with
      | (none, calls) => (none, cache, calls)
      | (some (outc, isSent), calls) =>
          let cache1 :=
            if isSent then
              match idempKey with
              | some key =>
                  mapInsert cache key { status := "sent".toList, timestamp := env.now }
              | none => cache
            else cache
          match sendLoop env args kind caf idempKey rest cache1 with
          | (none, cacheF, callsR) => (none, cacheF, calls ++ callsR)
          | (some (outs, s, f), cacheF, callsR) =>
              (some (outc :: outs,
                     (if isSent then 1 else 0) + s,
                     (if isSent then 0 else 1) + f),
               cacheF, calls ++ callsR)

/-- The `check_and_format` flag defaults to `true` unless supplied as a boolean
(part_002 lines 383-386). -/
def cafOf (args : SendArgs) : Bool :=
  match args.check_and_format with
  | some (GoVal.boolean b) => b
  | _ => true

/-- The idempotency-cache lookup performed at the top of `handleSend`
(part_002 lines 369-380). -/
def idempHit (h : Handler) (args : SendArgs) : Option SendResult :=
  match idempKeyOf args with
  | some key => mapLookup h.idempotencyCache key
  | none => none

/-- `handleSend` (part_002 lines 356-516): extract `recipients` and `kind`
(panicking type assertions), short-circuit on an idempotency-cache hit, run the
recipient loop, and wrap the aggregation in the response envelope whose status is
`success` / `partial` / `error` according to the sent and failed counters.
Returns the envelope (`none` on panic), the updated handler state and the trace
of collaborator calls. -/
def handleSend (env : Collab) (h : Handler) (args : SendArgs) :
    Option (StandardResponse SendData) × Handler × List ExtCall :=
  match asStrList args.recipients with
  | none => (none, h, [])
  | some recipients =>
      match asStr args.kind with
      | none => (none, h, [])
      | some kind =>
          match idempHit h args with
          | some cached =>
              (some (createResponse h "whatsapp_send".toList "send".toList
                       "success".toList (SendData.cachedHit cached)), h, [])
          | none =>
              match sendLoop env args kind (cafOf args) (idempKeyOf args) recipients
                  h.idempotencyCache with
              | (none, cache1, calls) =>
                  (none, { h with idempotencyCache := cache1 }, calls)
              | (some (outs, sent, failed), cache1, calls) =>
                  let status :=
                    if 0 < failed ∧ 0 < sent then "partial".toList
                    else if 0 < failed ∧ sent = 0 then "error".toList
                    else "success".toList
                  (some (createResponse h "whatsapp_send".toList "send".toList status
                           (SendData.batch recipients.length sent failed outs)),
                   { h with idempotencyCache := cache1 }, calls)

/-! ## The chats action dispatch -/

/-- The actions handled by the `switch action` of `handleChats`
(part_002 lines 1168-1308). -/
def chatKnownActions : List Str :=
  ["list".toList, "archive".toList, "unarchive".toList, "pin".toList,
   "unpin".toList, "delete".toList, "mute".toList, "unmute".toList]

/-- The default branch of `handleChats` (part_002 lines 1309-1312), taken exactly
when the action is outside `chatKnownActions`: the envelope is built by
`createError` with code `invalid_action`, message `Unknown action` and the
caller-supplied action string as the detail. -/
def handleChatsDefault (action : Str) : StandardResponse Unit :=
  createError "whatsapp_chats".toList action "invalid_action".toList
    "Unknown action".toList action

/-! ## The chat aggregator (`serviceChat.ListChats`, src/usecase/chat.go)

RFC3339 timestamp formatting is injective on distinct instants, so timestamps are
abstracted to `Nat` tokens; `time.Now()` is the parameter `now`.  Contacts carry
their JID both rendered (`jid.String()`) and as the bare user part (`jid.User`).
`whatsapp.GetClient()` / `utils.MustLogin` concern the out-of-scope transport
session and are assumed established. -/

/-- A chat row of the persisted chat store (`chatStorageRepo.GetChats`). -/
structure StoredChat where
  jid : Str
  name : Str
  lastMessageTime : Nat
  createdAt : Nat
  updatedAt : Nat
deriving DecidableEq

/-- An entry of the live group directory (`GetJoinedGroups`). -/
structure DirGroup where
  jid : Str
  name : Str
deriving DecidableEq

/-- An entry of the live contact directory (`Store.Contacts.GetAllContacts`). -/
structure DirContact where
  jidStr : Str
  user : Str
  fullName : Str
deriving DecidableEq

/-- `domainChat.ChatInfo` as populated by `ListChats`. -/
structure ChatInfo where
  jid : Str
  name : Str
  lastMessageTime : Nat
  isGroup : Bool
  messagesSynced : Bool
  createdAt : Nat
  updatedAt : Nat
deriving DecidableEq

/-- `domainChat.PaginationResponse`. -/
structure Pagination where
  limit : Int
  offset : Int
  total : Int
deriving DecidableEq

/-- The search filter applied during each merge loop: a record is kept when the
search is empty or its lowercased name contains the lowercased search text
(chat.go: `request.Search != "" && !strings.Contains(...)` ⇒ skip). -/
def matchesSearch (search name : Str) : Bool :=
  if search = [] then true else strContains (lowerStr name) (lowerStr search)

/-- The chat map keyed by JID. -/
abbrev ChatMap := List (Str × ChatInfo)

/-- First merge loop (chat.go lines 49-66): every stored chat — these carry
`MessagesSynced = true` — that passes the search filter is inserted with no
key-presence check. -/
def addStored (search : Str) : List StoredChat → ChatMap → ChatMap
  | [], m => m
  | c :: rest, m =>
      let info : ChatInfo :=
        { jid := c.jid, name := c.name, lastMessageTime := c.lastMessageTime,
          isGroup := strContains c.jid "@g.us".toList,
          messagesSynced := true, createdAt := c.createdAt, updatedAt := c.updatedAt }
      if matchesSearch search info.name then
        addStored search rest (mapInsert m c.jid info)
      else addStored search rest m

/-- Second merge loop (chat.go lines 83-107): live groups are skipped when their
JID is already present, otherwise inserted with `MessagesSynced = false` (subject
to the search filter). -/
def addGroups (now : Nat) (search : Str) : List DirGroup → ChatMap → ChatMap
  | [], m => m
  | g :: rest, m =>
      if (mapLookup m g.jid).isSome then addGroups now search rest m
      else
        let info : ChatInfo :=
          { jid := g.jid, name := g.name, lastMessageTime := now, isGroup := true,
            messagesSynced := false, createdAt := now, updatedAt := now }
        if matchesSearch search info.name then
          addGroups now search rest (mapInsert m g.jid info)
        else addGroups now search rest m

/-- Third merge loop (chat.go lines 109-146): live contacts — skipping `@g.us`
JIDs and already-present keys — are inserted with `MessagesSynced = false`; an
empty full name falls back to the bare user part before the search filter. -/
def addContacts (now : Nat) (search : Str) : List DirContact → ChatMap → ChatMap
  | [], m => m
  | c :: rest, m =>
      if strContains c.jidStr "@g.us".toList then addContacts now search rest m
      else if (mapLookup m c.jidStr).isSome then addContacts now search rest m
      else
        let name1 := if c.fullName = [] then c.user else c.fullName
        let info : ChatInfo :=
          { jid := c.jidStr, name := name1, lastMessageTime := now, isGroup := false,
            messagesSynced := false, createdAt := now, updatedAt := now }
        if matchesSearch search info.name then
          addContacts now search rest (mapInsert m c.jidStr info)
        else addContacts now search rest m

/-- The deduplicating merge of the three source streams in fixed precedence. -/
def mergeChats (now : Nat) (search : Str) (stored : List StoredChat)
    (groups : List DirGroup) (contacts : List DirContact) : ChatMap :=
  addContacts now search contacts (addGroups now search groups (addStored search stored []))

/-- Modelled from the spec: `validations.ValidateListChats` lives in the
`validations` package, which is not among the sources under verification.  §4.3's
contract accepts every search/limit/offset combination (a `limit ≤ 0` or an
out-of-range `offset` is handled by the paging rules, not rejected), so the
validation is modelled as always succeeding. -/
def validateListChats (search : Str) (limit offset : Int) : Except Str Unit :=
  Except.ok ()

/-- The error fallback applied to each source stream (chat.go lines 39-43, 69-73,
76-80): on a source error the stream is replaced by the empty list and the merge
continues. -/
def okOrEmpty {α : Type} : Except Str (List α) → List α
  | Except.ok l => l
  | Except.error _ => []

/-- Offset application (chat.go lines 157-162): slice from `offset` when
`0 < offset < len`; empty page when `offset ≥ len`; otherwise unchanged. -/
def applyOffset (l : List ChatInfo) (offset : Int) : List ChatInfo :=
  if 0 < offset ∧ offset < (l.length : Int) then l.drop offset.toNat
  else if (l.length : Int) ≤ offset then []
  else l

/-- Limit application (chat.go lines 164-167): truncate to `limit` only when
`0 < limit < len`. -/
def applyLimit (l : List ChatInfo) (limit : Int) : List ChatInfo :=
  if 0 < limit ∧ limit < (l.length : Int) then l.take limit.toNat else l

/-- `ListChats` (chat.go lines 30-185): validate, fall back to an empty stream on
a source error, merge with dedup and the search filter, then page.  `Total` is the
size of the merged-and-filtered set before paging.  The conversion of the Go map
to a slice iterates in unspecified order; the model uses insertion order, and no
theorem below depends on it. -/
def listChats (now : Nat) (search : Str) (limit offset : Int)
    (stored : Except Str (List StoredChat)) (groups : Except Str (List DirGroup))
    (contacts : Except Str (List DirContact)) :
    Except Str (List ChatInfo × Pagination) :=
  match validateListChats search limit offset with
  | Except.error e => Except.error e
  | Except.ok _ =>
      let m := mergeChats now search (okOrEmpty stored) (okOrEmpty groups)
        (okOrEmpty contacts)
      let chatInfos := m.map (fun p => p.2)
      let totalCount := chatInfos.length
      let paged := applyLimit (applyOffset chatInfos offset) limit
      Except.ok (paged, { limit := limit, offset := offset, total := (totalCount : Int) })


/-- The `switch action` of `handleChats` (part_002 lines 1165-1314) at the level
of the dispatch: a known action enters its branch (whose envelope depends on the
chat service and is not modelled, hence `none` here); any other action string
falls through to the default branch `handleChatsDefault`. -/
def handleChatsEnvelope (action : Str) : Option (StandardResponse Unit) :=
  if action ∈ chatKnownActions then none
  else some (handleChatsDefault action)

/-! ## Concrete test fixtures -/

/-- A fresh handler as produced by `InitOptimizedMcpV2`: empty idempotency cache,
rate-limit counter 500, abstract reset instant. -/
def baseHandler : Handler :=
  { idempotencyCache := [], rateLimitRemaining := 500, rateLimitReset := 99 }

/-- Collaborators whose send always succeeds. -/
def envOk : Collab :=
  { myListGroups := Except.ok [], isOnWhatsApp := fun _ => Except.ok true,
    send := fun _ _ => Except.ok (), now := 5 }

/-- Collaborators whose send always fails. -/
def envFail : Collab :=
  { myListGroups := Except.ok [], isOnWhatsApp := fun _ => Except.ok true,
    send := fun _ _ => Except.error "boom".toList, now := 5 }

/-- Collaborators with an empty group directory and no registered phones. -/
def envNobody : Collab :=
  { myListGroups := Except.ok [], isOnWhatsApp := fun _ => Except.ok false,
    send := fun _ _ => Except.ok (), now := 7 }

/-- Collaborators whose send succeeds except for target "c". -/
def envMixed : Collab :=
  { myListGroups := Except.ok [], isOnWhatsApp := fun _ => Except.ok true,
    send := fun _ t => if t = "c".toList then Except.error "boom".toList else Except.ok (),
    now := 5 }

/-- One recipient, kind text, no phone check, idempotency key "k". -/
def argsKeyed : SendArgs :=
  { recipients := some (GoVal.arr [GoVal.str "a".toList]),
    kind := some (GoVal.str "text".toList),
    check_and_format := some (GoVal.boolean false),
    idempotency_key := some (GoVal.str "k".toList) }

/-- Three recipients, kind text, no phone check. -/
def argsThree : SendArgs :=
  { recipients := some (GoVal.arr
      [GoVal.str "a".toList, GoVal.str "b".toList, GoVal.str "c".toList]),
    kind := some (GoVal.str "text".toList),
    check_and_format := some (GoVal.boolean false) }

/-- Recipients supplied but no `kind` parameter. -/
def argsNoKind : SendArgs :=
  { recipients := some (GoVal.arr [GoVal.str "a".toList]) }

/-- An empty recipients array with kind text. -/
def argsEmptyRecipients : SendArgs :=
  { recipients := some (GoVal.arr []), kind := some (GoVal.str "text".toList) }

/-- A symbolic group reference that cannot be resolved, followed by a JID. -/
def argsNameRef : SendArgs :=
  { recipients := some (GoVal.arr [GoVal.str "name:Team".toList,
      GoVal.str "+123@s.whatsapp.net".toList]),
    kind := some (GoVal.str "text".toList) }

/-- The handler state after a successful keyed send at instant 5. -/
def keyedHandler : Handler :=
  { idempotencyCache := [("k".toList, { status := "sent".toList, timestamp := 5 })],
    rateLimitRemaining := 500, rateLimitReset := 99 }

/-- A sent outcome at instant `t`. -/
def outSent (r : Str) (t : Nat) : SendOutcome :=
  { toTarget := r, status := "sent".toList, timestamp := some t }

/-- A failed outcome with the collaborator message preserved. -/
def outFailed (r : Str) (msg : Str) : SendOutcome :=
  { toTarget := r, status := "failed".toList, errMsg := some msg }

/-- A not-on-whatsapp outcome after normalization. -/
def outNotOnWA (r normalized : Str) : SendOutcome :=
  { toTarget := r, normalized := some normalized, status := "not_on_whatsapp".toList,
    errMsg := some "Recipient not on WhatsApp".toList }

/-- A stored chat whose name does not match the search "bet". -/
def c7stored : StoredChat :=
  { jid := "x@g.us".toList, name := "Alpha".toList, lastMessageTime := 1,
    createdAt := 2, updatedAt := 3 }

/-- A live group with the same JID whose name does match "bet". -/
def c7group : DirGroup := { jid := "x@g.us".toList, name := "Beta".toList }

/-! ## Association-map and counting lemmas -/

theorem mapLookup_mapInsert_self {α : Type} (m : List (Str × α)) (k : Str) (v : α) :
    mapLookup (mapInsert m k v) k = some v := by
  induction m with
  | nil => simp [mapInsert, mapLookup]
  | cons p rest ih =>
      obtain ⟨k0, v0⟩ := p
      by_cases h : k0 = k
      · simp [mapInsert, mapLookup, h]
      · simp [mapInsert, mapLookup, h, ih]

theorem mapLookup_mapInsert_ne {α : Type} (m : List (Str × α)) (k' k : Str) (v : α)
    (h : k' ≠ k) : mapLookup (mapInsert m k' v) k = mapLookup m k := by
  induction m with
  | nil => simp [mapInsert, mapLookup, h]
  | cons p rest ih =>
      obtain ⟨k0, v0⟩ := p
      by_cases h0 : k0 = k'
      · subst h0
        simp [mapInsert, mapLookup, h]
      · simp [mapInsert, h0, mapLookup]
        by_cases h1 : k0 = k <;> simp [h1, ih]

theorem mapInsert_idem {α : Type} (m : List (Str × α)) (k : Str) (v : α) :
    mapInsert (mapInsert m k v) k v = mapInsert m k v := by
  induction m with
  | nil => simp [mapInsert]
  | cons p rest ih =>
      obtain ⟨k0, v0⟩ := p
      by_cases h : k0 = k
      · simp [mapInsert, h]
      · simp [mapInsert, h, ih]

theorem countP_not_add {α : Type} (p : α → Bool) (l : List α) :
    l.countP p + l.countP (fun a => ! p a) = l.length := by
  induction l with
  | nil => simp
  | cons a l ih => by_cases h : p a <;> simp [List.countP_cons, h] <;> omega

/-! ## Loop invariants of the batch send -/

theorem finishSend_spec (env : Collab) (args : SendArgs) (kind r : Str) (rv : Resolved)
    (normalized : Option Str) (target : Str) (calls : List ExtCall)
    (outc : SendOutcome) (b : Bool) (calls' : List ExtCall)
    (h : finishSend env args kind r rv normalized target calls = (some (outc, b), calls')) :
    outc.toTarget = r ∧ decide (outc.status = "sent".toList) = b ∧
    (outc.status = "sent".toList ∨ outc.status = "failed".toList) := by
  unfold finishSend at h
  split at h
  · simp at h
  · simp only [Prod.mk.injEq, Option.some.injEq] at h
    obtain ⟨⟨ho, hb⟩, _⟩ := h
    subst ho hb
    refine ⟨rfl, ?_, Or.inr rfl⟩
    show decide (("failed".toList : Str) = "sent".toList) = false
    decide
  · simp only [Prod.mk.injEq, Option.some.injEq] at h
    obtain ⟨⟨ho, hb⟩, _⟩ := h
    subst ho hb
    refine ⟨rfl, ?_, Or.inl rfl⟩
    show decide (("sent".toList : Str) = "sent".toList) = true
    decide

theorem processOne_spec (env : Collab) (args : SendArgs) (kind : Str) (caf : Bool)
    (r : Str) (outc : SendOutcome) (b : Bool) (calls : List ExtCall)
    (h : processOne env args kind caf r = (some (outc, b), calls)) :
    outc.toTarget = r ∧ decide (outc.status = "sent".toList) = b ∧
    (outc.status = "sent".toList ∨ outc.status = "failed".toList ∨
     outc.status = "not_on_whatsapp".toList) := by
  simp only [processOne] at h
  split at h
  · split at h
    · simp only [Prod.mk.injEq, Option.some.injEq] at h
      obtain ⟨⟨ho, hb⟩, _⟩ := h
      subst ho hb
      refine ⟨rfl, ?_, Or.inr (Or.inr rfl)⟩
      show decide (("not_on_whatsapp".toList : Str) = "sent".toList) = false
      decide
    · split at h
      · simp only [Prod.mk.injEq, Option.some.injEq] at h
        obtain ⟨⟨ho, hb⟩, _⟩ := h
        subst ho hb
        refine ⟨rfl, ?_, Or.inr (Or.inr rfl)⟩
        show decide (("not_on_whatsapp".toList : Str) = "sent".toList) = false
        decide
      · obtain ⟨h1, h2, h3⟩ := finishSend_spec _ _ _ _ _ _ _ _ _ _ _ h
        exact ⟨h1, h2, h3.imp id Or.inl⟩
  · obtain ⟨h1, h2, h3⟩ := finishSend_spec _ _ _ _ _ _ _ _ _ _ _ h
    exact ⟨h1, h2, h3.imp id Or.inl⟩

theorem sendLoop_spec (env : Collab) (args : SendArgs) (kind : Str) (caf : Bool)
    (idempKey : Option Str) (recips : List Str) :
    ∀ (cache : Cache) (outs : List SendOutcome) (s f : Nat) (cacheF : Cache)
      (calls : List ExtCall),
      sendLoop env args kind caf idempKey recips cache
        = (some (outs, s, f), cacheF, calls) →
      outs.map (fun o => o.toTarget) = recips ∧
      s = outs.countP (fun o => decide (o.status = "sent".toList)) ∧
      f = outs.countP (fun o => ! decide (o.status = "sent".toList)) ∧
      (∀ o ∈ outs, o.status = "sent".toList ∨ o.status = "failed".toList ∨
        o.status = "not_on_whatsapp".toList) ∧
      cacheF = (if 0 < s then
                  match idempKey with
                  | some key =>
                      mapInsert cache key { status := "sent".toList, timestamp := env.now }
                  | none => cache
                else cache) := by
  induction recips with
  | nil =>
      intro cache outs s f cacheF calls h
      simp only [sendLoop] at h
      simp only [Prod.mk.injEq, Option.some.injEq] at h
      obtain ⟨⟨ho, hs, hf⟩, hcF, hcalls⟩ := h
      subst ho hs hf hcF hcalls
      simp
  | cons r rest ih =>
      intro cache outs s f cacheF calls h
      simp only [sendLoop] at h
      split at h
      next calls1 heq => simp at h
      next outc isSent calls1 heq =>
        split at h
        next cacheF2 callsR heq2 => simp at h
        next outs2 s2 f2 cacheF2 callsR heq2 =>
          simp only [Prod.mk.injEq, Option.some.injEq] at h
          obtain ⟨⟨ho, hs, hf⟩, hcF, hcalls⟩ := h
          subst ho hs hf hcF hcalls
          obtain ⟨ht, hst, hmem⟩ := processOne_spec _ _ _ _ _ _ _ _ heq
          obtain ⟨ihm, ihs, ihf, ihmem, ihc⟩ := ih _ _ _ _ _ _ heq2
          cases isSent with
          | false =>
              have hne : outc.status ≠ (['s', 'e', 'n', 't'] : Str) := by simpa using hst
              refine ⟨?_, ?_, ?_, ?_, ?_⟩
              · simp [ht, ihm]
              · rw [List.countP_cons, ← ihs]
                simp [hne]
              · rw [List.countP_cons, ← ihf]
                simp only [if_neg (by simp : ¬ (false = true))]
                simp [hne]
                omega
              · intro o ho
                rcases List.mem_cons.mp ho with ho | ho
                · subst ho; exact hmem
                · exact ihmem o ho
              · simpa using ihc
          | true =>
              have hpos : outc.status = (['s', 'e', 'n', 't'] : Str) := by simpa using hst
              refine ⟨?_, ?_, ?_, ?_, ?_⟩
              · simp [ht, ihm]
              · rw [List.countP_cons, ← ihs]
                simp [hpos]
                omega
              · rw [List.countP_cons, ← ihf]
                simp [hpos]
              · intro o ho
                rcases List.mem_cons.mp ho with ho | ho
                · subst ho; exact hmem
                · exact ihmem o ho
              · cases idempKey with
                | none => simpa using ihc
                | some key =>
                    simp only [if_pos (by simp : (true = true))] at ihc
                    rw [ihc]
                    have h1 : 0 < (if (true = true) then 1 else 0) + s2 := by simp
                    rw [if_pos h1]
                    split_ifs with h2
                    · exact mapInsert_idem _ _ _
                    · rfl

theorem handleSend_panic_args (env : Collab) (h : Handler) (args : SendArgs)
    (hbad : asStrList args.recipients = none ∨ asStr args.kind = none) :
    handleSend env h args = (none, h, []) := by
  rcases hbad with hb | hb
  · simp only [handleSend, hb]
  · cases hrec : asStrList args.recipients with
    | none => simp only [handleSend, hrec]
    | some rs => simp only [handleSend, hrec, hb]

theorem handleSend_cache_hit (env : Collab) (h : Handler) (args : SendArgs)
    (rs : List Str) (kind : Str) (cached : SendResult)
    (hrec : asStrList args.recipients = some rs)
    (hkind : asStr args.kind = some kind)
    (hhit : idempHit h args = some cached) :
    handleSend env h args =
      (some (createResponse h "whatsapp_send".toList "send".toList "success".toList
               (SendData.cachedHit cached)), h, []) := by
  simp only [handleSend, hrec, hkind, hhit]

theorem handleSend_run_batch (env : Collab) (h : Handler) (args : SendArgs)
    (resp : StandardResponse SendData) (h' : Handler) (calls : List ExtCall)
    (req s f : Nat) (outs : List SendOutcome) (rs : List Str)
    (hrec : asStrList args.recipients = some rs)
    (hrun : handleSend env h args = (some resp, h', calls))
    (hdata : resp.data = some (SendData.batch req s f outs)) :
    req = rs.length ∧
    idempHit h args = none ∧
    h'.rateLimitRemaining = h.rateLimitRemaining ∧
    h'.rateLimitReset = h.rateLimitReset ∧
    resp.status = (if 0 < f ∧ 0 < s then "partial".toList
                   else if 0 < f ∧ s = 0 then "error".toList else "success".toList) ∧
    ∃ kind, asStr args.kind = some kind ∧
      sendLoop env args kind (cafOf args) (idempKeyOf args) rs h.idempotencyCache
        = (some (outs, s, f), h'.idempotencyCache, calls) := by
  simp only [handleSend, hrec] at hrun
  split at hrun
  · simp at hrun
  · rename_i kind hkind
    split at hrun
    · rename_i cached hhit
      simp only [Prod.mk.injEq, Option.some.injEq] at hrun
      obtain ⟨hresp, _, _⟩ := hrun
      subst hresp
      simp [createResponse] at hdata
    · rename_i hhit
      split at hrun
      · simp at hrun
      · rename_i outs0 sent0 failed0 cache1 calls0 hloop
        simp only [Prod.mk.injEq, Option.some.injEq] at hrun
        obtain ⟨hresp, hh, hcalls⟩ := hrun
        subst hresp
        subst hh
        subst hcalls
        simp only [createResponse, Option.some.injEq, SendData.batch.injEq] at hdata
        obtain ⟨hreq, hsent, hfailed, houts⟩ := hdata
        subst hreq hsent hfailed houts
        refine ⟨rfl, hhit, rfl, rfl, rfl, kind, hkind, hloop⟩

/-! ## Chat-merge lemmas -/

theorem matchesSearch_nil (name : Str) : matchesSearch [] name = true := by
  simp [matchesSearch]

theorem mapLookup_isSome_mapInsert {α : Type} (m : List (Str × α)) (k' k : Str) (v : α)
    (h : (mapLookup m k).isSome) : (mapLookup (mapInsert m k' v) k).isSome := by
  by_cases hk : k' = k
  · subst hk
    simp [mapLookup_mapInsert_self]
  · rw [mapLookup_mapInsert_ne _ _ _ _ hk]
    exact h

theorem mapInsert_cons_self {α : Type} (k0 : Str) (v0 v : α) (rest : List (Str × α)) :
    mapInsert ((k0, v0) :: rest) k0 v = (k0, v) :: rest := by
  simp [mapInsert]

theorem mapInsert_cons_ne {α : Type} (k0 k : Str) (v0 v : α) (rest : List (Str × α))
    (h : k0 ≠ k) :
    mapInsert ((k0, v0) :: rest) k v = (k0, v0) :: mapInsert rest k v := by
  simp [mapInsert, h]

theorem mem_mapInsert {α : Type} (m : List (Str × α)) (k : Str) (v : α) (p : Str × α)
    (h : p ∈ mapInsert m k v) : p ∈ m ∨ p = (k, v) := by
  induction m with
  | nil => simpa [mapInsert] using h
  | cons q rest ih =>
      obtain ⟨k0, v0⟩ := q
      by_cases h0 : k0 = k
      · subst h0
        rw [mapInsert_cons_self] at h
        rcases List.mem_cons.mp h with h | h
        · exact Or.inr h
        · exact Or.inl (List.mem_cons_of_mem _ h)
      · rw [mapInsert_cons_ne _ _ _ _ _ h0] at h
        rcases List.mem_cons.mp h with h | h
        · exact Or.inl (by rw [h]; exact List.mem_cons_self _ _)
        · rcases ih h with h2 | h2
          · exact Or.inl (List.mem_cons_of_mem _ h2)
          · exact Or.inr h2

theorem countP_key_mapInsert {α : Type} (m : List (Str × α)) (k : Str) (v : α) (X : Str) :
    (mapInsert m k v).countP (fun p => decide (p.1 = X)) =
      m.countP (fun p => decide (p.1 = X)) +
        (if k = X ∧ (mapLookup m k).isSome = false then 1 else 0) := by
  induction m with
  | nil =>
      by_cases hx : k = X <;> simp [mapInsert, mapLookup, List.countP_cons, hx]
  | cons q rest ih =>
      obtain ⟨k0, v0⟩ := q
      by_cases h0 : k0 = k
      · subst h0
        rw [mapInsert_cons_self]
        simp [List.countP_cons, mapLookup]
      · rw [mapInsert_cons_ne _ _ _ _ _ h0]
        have hl : mapLookup ((k0, v0) :: rest) k = mapLookup rest k := by
          simp [mapLookup, h0]
        simp only [List.countP_cons, ih, hl]
        omega

theorem invX_mapInsert {α : Type} (m : List (Str × α)) (k : Str) (v : α) (X : Str)
    (h : m.countP (fun p => decide (p.1 = X)) = (if (mapLookup m X).isSome then 1 else 0)) :
    (mapInsert m k v).countP (fun p => decide (p.1 = X)) =
      (if (mapLookup (mapInsert m k v) X).isSome then 1 else 0) := by
  rw [countP_key_mapInsert, h]
  by_cases hk : k = X
  · subst hk
    rw [mapLookup_mapInsert_self]
    cases hl : mapLookup m k with
    | none => simp [hl]
    | some w => simp [hl]
  · rw [mapLookup_mapInsert_ne _ _ _ _ hk]
    simp [hk]

theorem addStored_invX (search : Str) (cs : List StoredChat) (X : Str) :
    ∀ m : ChatMap,
      m.countP (fun p => decide (p.1 = X)) = (if (mapLookup m X).isSome then 1 else 0) →
      (addStored search cs m).countP (fun p => decide (p.1 = X)) =
        (if (mapLookup (addStored search cs m) X).isSome then 1 else 0) := by
  induction cs with
  | nil => intro m h; simpa [addStored] using h
  | cons c rest ih =>
      intro m h
      simp only [addStored]
      by_cases h1 : matchesSearch search c.name = true
      · simp only [if_pos h1]
        exact ih _ (invX_mapInsert _ _ _ _ h)
      · simp only [if_neg h1]
        exact ih _ h

theorem addGroups_invX (now : Nat) (search : Str) (gs : List DirGroup) (X : Str) :
    ∀ m : ChatMap,
      m.countP (fun p => decide (p.1 = X)) = (if (mapLookup m X).isSome then 1 else 0) →
      (addGroups now search gs m).countP (fun p => decide (p.1 = X)) =
        (if (mapLookup (addGroups now search gs m) X).isSome then 1 else 0) := by
  induction gs with
  | nil => intro m h; simpa [addGroups] using h
  | cons g rest ih =>
      intro m h
      simp only [addGroups]
      by_cases h1 : (mapLookup m g.jid).isSome = true
      · simp only [if_pos h1]
        exact ih _ h
      · simp only [if_neg h1]
        by_cases h2 : matchesSearch search g.name = true
        · simp only [if_pos h2]
          exact ih _ (invX_mapInsert _ _ _ _ h)
        · simp only [if_neg h2]
          exact ih _ h

theorem addContacts_invX (now : Nat) (search : Str) (cs : List DirContact) (X : Str) :
    ∀ m : ChatMap,
      m.countP (fun p => decide (p.1 = X)) = (if (mapLookup m X).isSome then 1 else 0) →
      (addContacts now search cs m).countP (fun p => decide (p.1 = X)) =
        (if (mapLookup (addContacts now search cs m) X).isSome then 1 else 0) := by
  induction cs with
  | nil => intro m h; simpa [addContacts] using h
  | cons c rest ih =>
      intro m h
      simp only [addContacts]
      by_cases h1 : strContains c.jidStr "@g.us".toList = true
      · simp only [if_pos h1]
        exact ih _ h
      · simp only [if_neg h1]
        by_cases h2 : (mapLookup m c.jidStr).isSome = true
        · simp only [if_pos h2]
          exact ih _ h
        · simp only [if_neg h2]
          by_cases h3 : matchesSearch search (if c.fullName = [] then c.user else c.fullName)
              = true
          · simp only [if_pos h3]
            exact ih _ (invX_mapInsert _ _ _ _ h)
          · simp only [if_neg h3]
            exact ih _ h

theorem addGroups_lookup (now : Nat) (search : Str) (gs : List DirGroup) (k : Str)
    (w : ChatInfo) :
    ∀ m : ChatMap, mapLookup m k = some w →
      mapLookup (addGroups now search gs m) k = some w := by
  induction gs with
  | nil => intro m h; simpa [addGroups] using h
  | cons g rest ih =>
      intro m h
      simp only [addGroups]
      by_cases h1 : (mapLookup m g.jid).isSome = true
      · simp only [if_pos h1]
        exact ih _ h
      · simp only [if_neg h1]
        have hne : g.jid ≠ k := by
          intro he
          rw [he, h] at h1
          simp at h1
        by_cases h2 : matchesSearch search g.name = true
        · simp only [if_pos h2]
          apply ih
          rw [mapLookup_mapInsert_ne _ _ _ _ hne]
          exact h
        · simp only [if_neg h2]
          exact ih _ h

theorem addContacts_lookup (now : Nat) (search : Str) (cs : List DirContact) (k : Str)
    (w : ChatInfo) :
    ∀ m : ChatMap, mapLookup m k = some w →
      mapLookup (addContacts now search cs m) k = some w := by
  induction cs with
  | nil => intro m h; simpa [addContacts] using h
  | cons c rest ih =>
      intro m h
      simp only [addContacts]
      by_cases h1 : strContains c.jidStr "@g.us".toList = true
      · simp only [if_pos h1]
        exact ih _ h
      · simp only [if_neg h1]
        by_cases h2 : (mapLookup m c.jidStr).isSome = true
        · simp only [if_pos h2]
          exact ih _ h
        · simp only [if_neg h2]
          have hne : c.jidStr ≠ k := by
            intro he
            rw [he, h] at h2
            simp at h2
          by_cases h3 : matchesSearch search (if c.fullName = [] then c.user else c.fullName)
              = true
          · simp only [if_pos h3]
            apply ih
            rw [mapLookup_mapInsert_ne _ _ _ _ hne]
            exact h
          · simp only [if_neg h3]
            exact ih _ h

theorem addStored_syncedX (search : Str) (cs : List StoredChat) (X : Str) :
    ∀ m : ChatMap, (∃ v, mapLookup m X = some v ∧ v.messagesSynced = true) →
      ∃ v, mapLookup (addStored search cs m) X = some v ∧ v.messagesSynced = true := by
  induction cs with
  | nil => intro m h; simpa [addStored] using h
  | cons c rest ih =>
      intro m h
      simp only [addStored]
      by_cases h1 : matchesSearch search c.name = true
      · simp only [if_pos h1]
        apply ih
        by_cases hc : c.jid = X
        · subst hc
          exact ⟨_, mapLookup_mapInsert_self _ _ _, rfl⟩
        · obtain ⟨v, hv, hs⟩ := h
          exact ⟨v, by rw [mapLookup_mapInsert_ne _ _ _ _ hc]; exact hv, hs⟩
      · simp only [if_neg h1]
        exact ih _ h

theorem addStored_presentX (X : Str) (cs : List StoredChat) :
    ∀ m : ChatMap, (∃ c ∈ cs, c.jid = X) →
      ∃ v, mapLookup (addStored [] cs m) X = some v ∧ v.messagesSynced = true := by
  induction cs with
  | nil =>
      intro m h
      obtain ⟨c, hc, _⟩ := h
      cases hc
  | cons c0 rest ih =>
      intro m h
      simp only [addStored]
      simp only [if_pos (matchesSearch_nil _)]
      obtain ⟨c, hc, hj⟩ := h
      rcases List.mem_cons.mp hc with he | hm
      · subst he
        apply addStored_syncedX
        rw [← hj]
        exact ⟨_, mapLookup_mapInsert_self _ _ _, rfl⟩
      · exact ih _ ⟨c, hm, hj⟩

theorem addStored_entries (search : Str) (cs : List StoredChat) (X : Str) :
    ∀ m : ChatMap, (∀ p ∈ m, p.1 = X → p.2.messagesSynced = true) →
      ∀ p ∈ addStored search cs m, p.1 = X → p.2.messagesSynced = true := by
  induction cs with
  | nil => intro m h; exact h
  | cons c rest ih =>
      intro m h
      simp only [addStored]
      by_cases h1 : matchesSearch search c.name = true
      · simp only [if_pos h1]
        apply ih
        intro p hp hpx
        rcases mem_mapInsert _ _ _ _ hp with hp2 | hp2
        · exact h p hp2 hpx
        · rw [hp2]
      · simp only [if_neg h1]
        exact ih _ h

theorem addGroups_entries (now : Nat) (search : Str) (gs : List DirGroup) (X : Str) :
    ∀ m : ChatMap, (mapLookup m X).isSome = true →
      (∀ p ∈ m, p.1 = X → p.2.messagesSynced = true) →
      ∀ p ∈ addGroups now search gs m, p.1 = X → p.2.messagesSynced = true := by
  induction gs with
  | nil => intro m _ h; exact h
  | cons g rest ih =>
      intro m hX h
      simp only [addGroups]
      by_cases h1 : (mapLookup m g.jid).isSome = true
      · simp only [if_pos h1]
        exact ih _ hX h
      · simp only [if_neg h1]
        have hne : g.jid ≠ X := by
          intro he
          rw [he] at h1
          exact h1 hX
        by_cases h2 : matchesSearch search g.name = true
        · simp only [if_pos h2]
          apply ih
          · rw [mapLookup_mapInsert_ne _ _ _ _ hne]
            exact hX
          · intro p hp hpx
            rcases mem_mapInsert _ _ _ _ hp with hp2 | hp2
            · exact h p hp2 hpx
            · rw [hp2] at hpx
              exact absurd hpx hne
        · simp only [if_neg h2]
          exact ih _ hX h

theorem addContacts_entries (now : Nat) (search : Str) (cs : List DirContact) (X : Str) :
    ∀ m : ChatMap, (mapLookup m X).isSome = true →
      (∀ p ∈ m, p.1 = X → p.2.messagesSynced = true) →
      ∀ p ∈ addContacts now search cs m, p.1 = X → p.2.messagesSynced = true := by
  induction cs with
  | nil => intro m _ h; exact h
  | cons c rest ih =>
      intro m hX h
      simp only [addContacts]
      by_cases h1 : strContains c.jidStr "@g.us".toList = true
      · simp only [if_pos h1]
        exact ih _ hX h
      · simp only [if_neg h1]
        by_cases h2 : (mapLookup m c.jidStr).isSome = true
        · simp only [if_pos h2]
          exact ih _ hX h
        · simp only [if_neg h2]
          have hne : c.jidStr ≠ X := by
            intro he
            rw [he] at h2
            exact h2 hX
          by_cases h3 : matchesSearch search (if c.fullName = [] then c.user else c.fullName)
              = true
          · simp only [if_pos h3]
            apply ih
            · rw [mapLookup_mapInsert_ne _ _ _ _ hne]
              exact hX
            · intro p hp hpx
              rcases mem_mapInsert _ _ _ _ hp with hp2 | hp2
              · exact h p hp2 hpx
              · rw [hp2] at hpx
                exact absurd hpx hne
          · simp only [if_neg h3]
            exact ih _ hX h

theorem addStored_keyjid (search : Str) (cs : List StoredChat) :
    ∀ m : ChatMap, (∀ p ∈ m, p.1 = p.2.jid) →
      ∀ p ∈ addStored search cs m, p.1 = p.2.jid := by
  induction cs with
  | nil => intro m h; exact h
  | cons c rest ih =>
      intro m h
      simp only [addStored]
      by_cases h1 : matchesSearch search c.name = true
      · simp only [if_pos h1]
        apply ih
        intro p hp
        rcases mem_mapInsert _ _ _ _ hp with hp2 | hp2
        · exact h p hp2
        · rw [hp2]
      · simp only [if_neg h1]
        exact ih _ h

theorem addGroups_keyjid (now : Nat) (search : Str) (gs : List DirGroup) :
    ∀ m : ChatMap, (∀ p ∈ m, p.1 = p.2.jid) →
      ∀ p ∈ addGroups now search gs m, p.1 = p.2.jid := by
  induction gs with
  | nil => intro m h; exact h
  | cons g rest ih =>
      intro m h
      simp only [addGroups]
      by_cases h1 : (mapLookup m g.jid).isSome = true
      · simp only [if_pos h1]
        exact ih _ h
      · simp only [if_neg h1]
        by_cases h2 : matchesSearch search g.name = true
        · simp only [if_pos h2]
          apply ih
          intro p hp
          rcases mem_mapInsert _ _ _ _ hp with hp2 | hp2
          · exact h p hp2
          · rw [hp2]
        · simp only [if_neg h2]
          exact ih _ h

theorem addContacts_keyjid (now : Nat) (search : Str) (cs : List DirContact) :
    ∀ m : ChatMap, (∀ p ∈ m, p.1 = p.2.jid) →
      ∀ p ∈ addContacts now search cs m, p.1 = p.2.jid := by
  induction cs with
  | nil => intro m h; exact h
  | cons c rest ih =>
      intro m h
      simp only [addContacts]
      by_cases h1 : strContains c.jidStr "@g.us".toList = true
      · simp only [if_pos h1]
        exact ih _ h
      · simp only [if_neg h1]
        by_cases h2 : (mapLookup m c.jidStr).isSome = true
        · simp only [if_pos h2]
          exact ih _ h
        · simp only [if_neg h2]
          by_cases h3 : matchesSearch search (if c.fullName = [] then c.user else c.fullName)
              = true
          · simp only [if_pos h3]
            apply ih
            intro p hp
            rcases mem_mapInsert _ _ _ _ hp with hp2 | hp2
            · exact h p hp2
            · rw [hp2]
          · simp only [if_neg h3]
            exact ih _ h

/-! ## Pagination lemmas -/

theorem applyOffset_empty_of_ge (l : List ChatInfo) (offset : Int)
    (h : (l.length : Int) ≤ offset) : applyOffset l offset = [] := by
  unfold applyOffset
  split_ifs with h1
  · exfalso; omega
  · rfl

theorem applyLimit_of_nonpos (l : List ChatInfo) (limit : Int) (h : limit ≤ 0) :
    applyLimit l limit = l := by
  unfold applyLimit
  split_ifs with h1
  · exfalso; omega
  · rfl

theorem applyLimit_of_ge (l : List ChatInfo) (limit : Int) (h : (l.length : Int) ≤ limit) :
    applyLimit l limit = l := by
  unfold applyLimit
  split_ifs with h1
  · exfalso; omega
  · rfl

theorem applyLimit_nil (limit : Int) : applyLimit [] limit = [] := by
  unfold applyLimit
  split_ifs <;> simp

/-! ## Claim theorems -/

/-- C2 (counterexample): on the claim's own test vector "1234567890" — ten digits
starting with '1' — the source returns "+1234567890", not the claimed
"+11234567890": the source adds the `+1` prefix only when the ten digits do not
start with '1'.  The spec's algorithm (`normalizePhoneClaimed`) indeed yields
"+11234567890" there, so the two differ on this input. -/
theorem normalizePhone_ten_digit_counterexample :
    normalizePhone "1234567890".toList = "+1234567890".toList ∧
    normalizePhone "1234567890".toList ≠ "+11234567890".toList ∧
    normalizePhoneClaimed "1234567890".toList = "+11234567890".toList := by
  refine ⟨by decide, by decide, by decide⟩

/-- C2 (amended): normalizePhone strips the non-digits and then: if there are
exactly ten digits and they do not start with '1', it returns "+1" followed by
the digits (even when the original starts with '+'); otherwise, if the original
starts with '+', it returns the input unchanged; otherwise it returns '+'
followed by the digits.  In particular normalizePhone("1234567890") =
"+1234567890". -/
theorem normalizePhone_agrees_amended :
    (∀ phone : Str, normalizePhone phone = normalizePhoneAmended phone) ∧
    normalizePhone "1234567890".toList = "+1234567890".toList := by
  constructor
  · intro phone
    simp only [normalizePhone, normalizePhoneAmended]
    cases hp : strHasPre phone ['+'] <;>
      cases h1 : strHasPre (phone.filter Char.isDigit) ['1'] <;>
        simp only [hp, h1] <;> split_ifs <;> simp_all
  · decide

/-- C3 (counterexample): a send invocation with a recipients array but no `kind`
string does not complete with an `error`/`invalid_argument` envelope: the bare
type assertion `args["kind"].(string)` aborts the handler and no envelope is
produced at all (there is no `invalid_argument` code anywhere in the handler). -/
theorem handleSend_missing_kind_no_envelope :
    (handleSend envOk baseHandler argsNoKind).1 = none := by decide

/-- C3 (amended): when a required send parameter is missing or not of the
expected shape — no recipients array, a non-string recipient element, or no kind
string — the handler aborts through the failed type assertion before doing
anything: no envelope is produced, no external collaborator call is made, and
the handler state is unchanged. -/
theorem handleSend_missing_args_aborts (env : Collab) (h : Handler) (args : SendArgs)
    (hbad : asStrList args.recipients = none ∨ asStr args.kind = none) :
    handleSend env h args = (none, h, []) :=
  handleSend_panic_args env h args hbad

/-- C3 (witness): the amended claim at the concrete invocation missing `kind`. -/
theorem handleSend_missing_args_aborts_witness :
    handleSend envOk baseHandler argsNoKind = (none, baseHandler, []) :=
  handleSend_missing_args_aborts envOk baseHandler argsNoKind (Or.inr rfl)

/-- C9 (counterexample): the unknown-action envelope of `handleChats` carries NO
rate-limit info — `createError` never attaches it — although the status, the
`invalid_action` code and the verbatim action detail are as claimed. -/
theorem handleChats_unknown_action_no_ratelimit :
    ("frobnicate".toList ∉ chatKnownActions) ∧
    handleChatsEnvelope "frobnicate".toList
      = some (handleChatsDefault "frobnicate".toList) ∧
    (handleChatsDefault "frobnicate".toList).status = "error".toList ∧
    (handleChatsDefault "frobnicate".toList).error =
      some { code := "invalid_action".toList, message := "Unknown action".toList,
             detail := "frobnicate".toList } ∧
    (handleChatsDefault "frobnicate".toList).rateLimit = none := by
  refine ⟨by decide, by decide, by decide, by decide, by decide⟩

/-- C9 (amended): for every action outside the known chat actions, the returned
envelope is the `createError` default branch: status `error`, tool and action
echoed, code `invalid_action`, message `Unknown action`, detail equal to the
caller-supplied action string verbatim — and no rate-limit info (`createError`
omits it; only `createResponse` envelopes carry rate-limit info). -/
theorem handleChats_unknown_action_envelope (action : Str)
    (hact : action ∉ chatKnownActions) :
    handleChatsEnvelope action = some (handleChatsDefault action) ∧
    (handleChatsDefault action).status = "error".toList ∧
    (handleChatsDefault action).tool = "whatsapp_chats".toList ∧
    (handleChatsDefault action).action = action ∧
    (handleChatsDefault action).error =
      some { code := "invalid_action".toList, message := "Unknown action".toList,
             detail := action } ∧
    (handleChatsDefault action).rateLimit = none := by
  refine ⟨?_, rfl, rfl, rfl, rfl, rfl⟩
  simp [handleChatsEnvelope, hact]

/-- C9 (witness): the amended claim at the concrete unknown action "zap". -/
theorem handleChats_unknown_action_envelope_witness :
    handleChatsEnvelope "zap".toList = some (handleChatsDefault "zap".toList) ∧
    (handleChatsDefault "zap".toList).status = "error".toList ∧
    (handleChatsDefault "zap".toList).tool = "whatsapp_chats".toList ∧
    (handleChatsDefault "zap".toList).action = "zap".toList ∧
    (handleChatsDefault "zap".toList).error =
      some { code := "invalid_action".toList, message := "Unknown action".toList,
             detail := "zap".toList } ∧
    (handleChatsDefault "zap".toList).rateLimit = none :=
  handleChats_unknown_action_envelope "zap".toList (by decide)

/-- C10: a batch send invoked with an empty recipients list (kind present, no
idempotency-cache hit) completes without any external collaborator call and
returns the envelope with aggregate status `success`, `requested` = `sent` =
`failed` = 0 and an empty outcome list; the handler state is unchanged. -/
theorem handleSend_empty_recipients (env : Collab) (h : Handler) (args : SendArgs)
    (kind : Str)
    (hrec : asStrList args.recipients = some [])
    (hkind : asStr args.kind = some kind)
    (hmiss : idempHit h args = none) :
    handleSend env h args =
      (some (createResponse h "whatsapp_send".toList "send".toList "success".toList
               (SendData.batch 0 0 0 [])), h, []) := by
  simp only [handleSend, hrec, hkind, hmiss, sendLoop]
  simp

/-- C10 (witness): the empty-recipients batch at a concrete invocation. -/
theorem handleSend_empty_recipients_witness :
    handleSend envOk baseHandler argsEmptyRecipients =
      (some (createResponse baseHandler "whatsapp_send".toList "send".toList
               "success".toList (SendData.batch 0 0 0 [])), baseHandler, []) :=
  handleSend_empty_recipients envOk baseHandler argsEmptyRecipients "text".toList
    rfl rfl rfl

/-- C4: every batch send that completes with a batch envelope reports
`requested` equal to the number of recipients, `sent + failed = requested`, and
exactly one outcome per recipient in input order (the outcomes' `to` fields are
the recipient list itself); no recipient is dropped and one recipient's failure
never prevents the remaining recipients from being processed. -/
theorem handleSend_batch_accounting (env : Collab) (h : Handler) (args : SendArgs)
    (resp : StandardResponse SendData) (h' : Handler) (calls : List ExtCall)
    (req s f : Nat) (outs : List SendOutcome) (rs : List Str)
    (hrec : asStrList args.recipients = some rs)
    (hrun : handleSend env h args = (some resp, h', calls))
    (hdata : resp.data = some (SendData.batch req s f outs)) :
    req = rs.length ∧ s + f = req ∧ outs.length = req ∧
    outs.map (fun o => o.toTarget) = rs := by
  obtain ⟨hreq, _, _, _, _, kind, hkind, hloop⟩ :=
    handleSend_run_batch env h args resp h' calls req s f outs rs hrec hrun hdata
  obtain ⟨hmap, hs, hf, _, _⟩ :=
    sendLoop_spec env args kind (cafOf args) (idempKeyOf args) rs _ _ _ _ _ _ hloop
  have hlen : outs.length = rs.length := by
    rw [← hmap, List.length_map]
  refine ⟨hreq, ?_, ?_, hmap⟩
  · rw [hs, hf, hreq, ← hlen]
    exact countP_not_add _ _
  · rw [hlen, hreq]

/-- C4 (witness): the accounting at a three-recipient batch with one failure. -/
theorem handleSend_batch_accounting_witness :
    (3 : Nat) = (["a".toList, "b".toList, "c".toList] : List Str).length ∧
    2 + 1 = 3 ∧
    ([outSent "a".toList 5, outSent "b".toList 5,
      outFailed "c".toList "boom".toList] : List SendOutcome).length = 3 ∧
    ([outSent "a".toList 5, outSent "b".toList 5,
      outFailed "c".toList "boom".toList] : List SendOutcome).map (fun o => o.toTarget)
      = ["a".toList, "b".toList, "c".toList] :=
  handleSend_batch_accounting envMixed baseHandler argsThree
    (createResponse baseHandler "whatsapp_send".toList "send".toList "partial".toList
      (SendData.batch 3 2 1 [outSent "a".toList 5, outSent "b".toList 5,
        outFailed "c".toList "boom".toList]))
    baseHandler
    [ExtCall.send "text".toList "a".toList, ExtCall.send "text".toList "b".toList,
     ExtCall.send "text".toList "c".toList]
    3 2 1
    [outSent "a".toList 5, outSent "b".toList 5, outFailed "c".toList "boom".toList]
    ["a".toList, "b".toList, "c".toList]
    (by decide) (by decide) (by decide)

/-- C5: the aggregate envelope status of a completed batch is determined by the
outcomes: all outcomes `sent` gives `success`; all outcomes non-`sent` (with at
least one outcome) gives `error`; a mix of sent and non-sent gives `partial`. -/
theorem handleSend_aggregate_status (env : Collab) (h : Handler) (args : SendArgs)
    (resp : StandardResponse SendData) (h' : Handler) (calls : List ExtCall)
    (req s f : Nat) (outs : List SendOutcome) (rs : List Str)
    (hrec : asStrList args.recipients = some rs)
    (hrun : handleSend env h args = (some resp, h', calls))
    (hdata : resp.data = some (SendData.batch req s f outs)) :
    ((∀ o ∈ outs, o.status = "sent".toList) → resp.status = "success".toList) ∧
    ((∀ o ∈ outs, o.status ≠ "sent".toList) → outs ≠ [] →
      resp.status = "error".toList) ∧
    ((∃ o ∈ outs, o.status = "sent".toList) → (∃ o ∈ outs, o.status ≠ "sent".toList) →
      resp.status = "partial".toList) := by
  obtain ⟨hreq, _, _, _, hstatus, kind, hkind, hloop⟩ :=
    handleSend_run_batch env h args resp h' calls req s f outs rs hrec hrun hdata
  obtain ⟨hmap, hs, hf, _, _⟩ :=
    sendLoop_spec env args kind (cafOf args) (idempKeyOf args) rs _ _ _ _ _ _ hloop
  refine ⟨?_, ?_, ?_⟩
  · intro hall
    have hf0 : f = 0 := by
      rw [hf]
      exact List.countP_eq_zero.mpr (fun o ho => by simp [hall o ho])
    rw [hstatus]
    have hc1 : ¬ (0 < f ∧ 0 < s) := by omega
    by_cases hsz : s = 0
    · have hc2 : ¬ (0 < f ∧ s = 0) := by omega
      rw [if_neg hc1, if_neg hc2]
    · have hc2 : ¬ (0 < f ∧ s = 0) := by omega
      rw [if_neg hc1, if_neg hc2]
  · intro hall hne
    have hs0 : s = 0 := by
      rw [hs]
      exact List.countP_eq_zero.mpr
        (fun o ho => by simp only [decide_eq_true_eq]; exact hall o ho)
    have hfpos : 0 < f := by
      rw [hf]
      apply List.countP_pos_iff.mpr
      obtain ⟨o, ho⟩ := List.exists_mem_of_ne_nil outs hne
      refine ⟨o, ho, ?_⟩
      show (! decide (o.status = "sent".toList)) = true
      rw [decide_eq_false (hall o ho)]
      rfl
    rw [hstatus]
    have hc1 : ¬ (0 < f ∧ 0 < s) := by omega
    rw [if_neg hc1, if_pos ⟨hfpos, hs0⟩]
  · intro hex hnex
    obtain ⟨o1, ho1, hso1⟩ := hex
    obtain ⟨o2, ho2, hso2⟩ := hnex
    have hspos : 0 < s := by
      rw [hs]
      exact List.countP_pos_iff.mpr ⟨o1, ho1, by simp [hso1]⟩
    have hfpos : 0 < f := by
      rw [hf]
      apply List.countP_pos_iff.mpr
      refine ⟨o2, ho2, ?_⟩
      show (! decide (o2.status = "sent".toList)) = true
      rw [decide_eq_false hso2]
      rfl
    rw [hstatus, if_pos ⟨hfpos, hspos⟩]

/-- C5 (witness): the three aggregate statuses at concrete three-recipient
batches — 3 sent of 3 gives success, 0 sent of 3 gives error, 2 sent and 1
failed gives partial. -/
theorem handleSend_aggregate_status_witness :
    (createResponse baseHandler "whatsapp_send".toList "send".toList "success".toList
      (SendData.batch 3 3 0 [outSent "a".toList 5, outSent "b".toList 5,
        outSent "c".toList 5])).status = "success".toList ∧
    (createResponse baseHandler "whatsapp_send".toList "send".toList "error".toList
      (SendData.batch 3 0 3 [outFailed "a".toList "boom".toList,
        outFailed "b".toList "boom".toList,
        outFailed "c".toList "boom".toList])).status = "error".toList ∧
    (createResponse baseHandler "whatsapp_send".toList "send".toList "partial".toList
      (SendData.batch 3 2 1 [outSent "a".toList 5, outSent "b".toList 5,
        outFailed "c".toList "boom".toList])).status = "partial".toList := by
  refine ⟨?_, ?_, ?_⟩
  · exact (handleSend_aggregate_status envOk baseHandler argsThree _ baseHandler
      [ExtCall.send "text".toList "a".toList, ExtCall.send "text".toList "b".toList,
       ExtCall.send "text".toList "c".toList]
      3 3 0 [outSent "a".toList 5, outSent "b".toList 5, outSent "c".toList 5]
      ["a".toList, "b".toList, "c".toList]
      (by decide) (by decide) (by decide)).1 (by decide)
  · exact (handleSend_aggregate_status envFail baseHandler argsThree _ baseHandler
      [ExtCall.send "text".toList "a".toList, ExtCall.send "text".toList "b".toList,
       ExtCall.send "text".toList "c".toList]
      3 0 3 [outFailed "a".toList "boom".toList, outFailed "b".toList "boom".toList,
        outFailed "c".toList "boom".toList]
      ["a".toList, "b".toList, "c".toList]
      (by decide) (by decide) (by decide)).2.1 (by decide) (by decide)
  · exact (handleSend_aggregate_status envMixed baseHandler argsThree _ baseHandler
      [ExtCall.send "text".toList "a".toList, ExtCall.send "text".toList "b".toList,
       ExtCall.send "text".toList "c".toList]
      3 2 1 [outSent "a".toList 5, outSent "b".toList 5,
        outFailed "c".toList "boom".toList]
      ["a".toList, "b".toList, "c".toList]
      (by decide) (by decide) (by decide)).2.2 (by decide) (by decide)

/-- C6 (counterexample): with an empty group directory, the symbolic reference
"name:Team" cannot be resolved, yet no `resolution_failed` outcome is recorded:
the unresolved string falls through to phone normalization (all non-digits are
stripped, leaving "+") and the registration check, producing a
`not_on_whatsapp` outcome, while the sibling JID recipient is still sent. -/
theorem handleSend_resolution_failure_cex :
    ((handleSend envNobody baseHandler argsNameRef).1.bind (fun r => r.data)) =
      some (SendData.batch 2 1 1
        [outNotOnWA "name:Team".toList "+".toList,
         outSent "+123@s.whatsapp.net".toList 7]) := by decide

/-- C6 (amended): resolution failure of a `name:<text>` reference never yields a
`resolution_failed` outcome — no such status exists in the handler; every
completed batch outcome is `sent`, `failed` or `not_on_whatsapp` (an unresolved
reference falls through to the registration check or the send itself), and the
batch still records one outcome per recipient in input order, so sibling
recipients are unaffected. -/
theorem handleSend_no_resolution_failed_outcome (env : Collab) (h : Handler)
    (args : SendArgs) (resp : StandardResponse SendData) (h' : Handler)
    (calls : List ExtCall) (req s f : Nat) (outs : List SendOutcome) (rs : List Str)
    (hrec : asStrList args.recipients = some rs)
    (hrun : handleSend env h args = (some resp, h', calls))
    (hdata : resp.data = some (SendData.batch req s f outs)) :
    (∀ o ∈ outs, o.status = "sent".toList ∨ o.status = "failed".toList ∨
      o.status = "not_on_whatsapp".toList) ∧
    (∀ o ∈ outs, o.status ≠ "resolution_failed".toList) ∧
    outs.map (fun o => o.toTarget) = rs := by
  obtain ⟨_, _, _, _, _, kind, hkind, hloop⟩ :=
    handleSend_run_batch env h args resp h' calls req s f outs rs hrec hrun hdata
  obtain ⟨hmap, _, _, hmem, _⟩ :=
    sendLoop_spec env args kind (cafOf args) (idempKeyOf args) rs _ _ _ _ _ _ hloop
  refine ⟨hmem, ?_, hmap⟩
  intro o ho
  rcases hmem o ho with h1 | h1 | h1 <;> rw [h1] <;> decide

/-- C6 (witness): the amended claim at the unresolved "name:Team" batch. -/
theorem handleSend_no_resolution_failed_outcome_witness :
    (∀ o ∈ [outNotOnWA "name:Team".toList "+".toList,
        outSent "+123@s.whatsapp.net".toList 7],
      o.status = "sent".toList ∨ o.status = "failed".toList ∨
        o.status = "not_on_whatsapp".toList) ∧
    (∀ o ∈ [outNotOnWA "name:Team".toList "+".toList,
        outSent "+123@s.whatsapp.net".toList 7],
      o.status ≠ "resolution_failed".toList) ∧
    ([outNotOnWA "name:Team".toList "+".toList,
      outSent "+123@s.whatsapp.net".toList 7] : List SendOutcome).map
        (fun o => o.toTarget)
      = ["name:Team".toList, "+123@s.whatsapp.net".toList] :=
  handleSend_no_resolution_failed_outcome envNobody baseHandler argsNameRef
    (createResponse baseHandler "whatsapp_send".toList "send".toList "partial".toList
      (SendData.batch 2 1 1 [outNotOnWA "name:Team".toList "+".toList,
        outSent "+123@s.whatsapp.net".toList 7]))
    baseHandler
    [ExtCall.listGroups, ExtCall.checkOnWhatsApp "+".toList,
     ExtCall.send "text".toList "+123@s.whatsapp.net".toList]
    2 1 1
    [outNotOnWA "name:Team".toList "+".toList, outSent "+123@s.whatsapp.net".toList 7]
    ["name:Team".toList, "+123@s.whatsapp.net".toList]
    (by decide) (by decide) (by decide)

/-- C1 (counterexample): with a send collaborator that always fails and
idempotency key "k", the first invocation makes one send call but stores nothing
under the key — the cache is written only on a successful send, never for a
failed outcome — so a second invocation with the identical key is not served
from the cache and makes another send call: two calls into the send
collaborator in total, not one. -/
theorem handleSend_idempotency_failure_cex :
    (handleSend envFail baseHandler argsKeyed).2.2
      = [ExtCall.send "text".toList "a".toList] ∧
    (handleSend envFail baseHandler argsKeyed).2.1 = baseHandler ∧
    (handleSend envFail ((handleSend envFail baseHandler argsKeyed).2.1) argsKeyed).2.2
      = [ExtCall.send "text".toList "a".toList] := by
  refine ⟨by decide, by decide, by decide⟩

/-- C1 (amended): for a batch send with an active idempotency key that reaches
the recipient loop: after completion the key maps to the representative `sent`
result exactly when at least one send succeeded (an all-failed batch stores
nothing); and when at least one send succeeded, invoking the same operation
again on the resulting state makes no external call and returns the
cache-derived envelope. -/
theorem handleSend_idempotency_store_iff_success (env : Collab) (h : Handler)
    (args : SendArgs) (key : Str) (resp : StandardResponse SendData) (h' : Handler)
    (calls : List ExtCall) (req s f : Nat) (outs : List SendOutcome) (rs : List Str)
    (hrec : asStrList args.recipients = some rs)
    (hkey : idempKeyOf args = some key)
    (hrun : handleSend env h args = (some resp, h', calls))
    (hdata : resp.data = some (SendData.batch req s f outs)) :
    mapLookup h'.idempotencyCache key =
      (if 0 < s then some { status := "sent".toList, timestamp := env.now } else none) ∧
    (0 < s →
      handleSend env h' args =
        (some (createResponse h' "whatsapp_send".toList "send".toList "success".toList
                 (SendData.cachedHit { status := "sent".toList, timestamp := env.now })),
         h', [])) := by
  obtain ⟨_, hmiss, _, _, _, kind, hkind, hloop⟩ :=
    handleSend_run_batch env h args resp h' calls req s f outs rs hrec hrun hdata
  obtain ⟨_, _, _, _, hcache⟩ :=
    sendLoop_spec env args kind (cafOf args) (idempKeyOf args) rs _ _ _ _ _ _ hloop
  have hmiss2 : mapLookup h.idempotencyCache key = none := by
    unfold idempHit at hmiss
    rw [hkey] at hmiss
    exact hmiss
  simp only [hkey] at hcache
  constructor
  · rw [hcache]
    split_ifs with hs
    · exact mapLookup_mapInsert_self _ _ _
    · exact hmiss2
  · intro hs
    apply handleSend_cache_hit env h' args rs kind _ hrec hkind
    unfold idempHit
    rw [hkey, hcache, if_pos hs]
    exact mapLookup_mapInsert_self _ _ _

/-- C1 (witness): the amended claim at a concrete single-recipient success. -/
theorem handleSend_idempotency_store_iff_success_witness :
    mapLookup keyedHandler.idempotencyCache "k".toList =
      (if 0 < 1 then some { status := "sent".toList, timestamp := envOk.now }
       else none) ∧
    (0 < 1 →
      handleSend envOk keyedHandler argsKeyed =
        (some (createResponse keyedHandler "whatsapp_send".toList "send".toList
                 "success".toList
                 (SendData.cachedHit { status := "sent".toList, timestamp := envOk.now })),
         keyedHandler, [])) :=
  handleSend_idempotency_store_iff_success envOk baseHandler argsKeyed "k".toList
    (createResponse baseHandler "whatsapp_send".toList "send".toList "success".toList
      (SendData.batch 1 1 0 [outSent "a".toList 5]))
    keyedHandler [ExtCall.send "text".toList "a".toList] 1 1 0
    [outSent "a".toList 5] ["a".toList]
    (by decide) (by decide) (by decide) (by decide)

/-- C7 (counterexample): with search "bet", the store record for `x@g.us` (name
"Alpha") fails the search filter and is not inserted, while the live group with
the same JID (name "Beta") matches and is inserted: the merged listing contains
exactly one record for the identifier, but it carries `messagesSynced = false` —
refuting both "store records are inserted unconditionally" and "a store+directory
identifier always surfaces with synced=true". -/
theorem listChats_search_shadow_cex :
    listChats 5 "bet".toList 0 0 (Except.ok [c7stored]) (Except.ok [c7group])
        (Except.ok [])
      = Except.ok
          ([{ jid := "x@g.us".toList, name := "Beta".toList, lastMessageTime := 5,
              isGroup := true, messagesSynced := false, createdAt := 5,
              updatedAt := 5 }],
           { limit := 0, offset := 0, total := 1 }) := by rfl

/-- C7 (amended): in the merge with an empty search, every persisted-store record
is inserted (with synced=true) without a key-presence check, and live directory
records are inserted only when their key is absent; hence when the store contains
identifier X — whatever the live directories contain — the merged listing holds
exactly one record with jid X, and that record carries messagesSynced = true.
(With a non-empty search, a store record whose name fails the filter can instead
be shadowed by a same-identifier directory record carrying synced=false.) -/
theorem mergeChats_store_wins_dedup (now : Nat) (stored : List StoredChat)
    (groups : List DirGroup) (contacts : List DirContact) (X : Str) (c : StoredChat)
    (hc : c ∈ stored) (hj : c.jid = X) :
    ((mergeChats now [] stored groups contacts).map (fun p => p.2)).countP
        (fun ci => decide (ci.jid = X)) = 1 ∧
    (∀ ci ∈ (mergeChats now [] stored groups contacts).map (fun p => p.2),
      ci.jid = X → ci.messagesSynced = true) := by
  obtain ⟨v, hv, hvs⟩ := addStored_presentX X stored [] ⟨c, hc, hj⟩
  have hv2 := addGroups_lookup now [] groups X v _ hv
  have hv3 := addContacts_lookup now [] contacts X v _ hv2
  have hsome : (mapLookup (mergeChats now [] stored groups contacts) X).isSome = true := by
    unfold mergeChats
    rw [hv3]
    rfl
  have hinv0 : ([] : ChatMap).countP (fun p => decide (p.1 = X)) =
      (if (mapLookup ([] : ChatMap) X).isSome then 1 else 0) := by
    simp [mapLookup]
  have hinv := addContacts_invX now [] contacts X _
    (addGroups_invX now [] groups X _ (addStored_invX [] stored X _ hinv0))
  have hcount : (mergeChats now [] stored groups contacts).countP
      (fun p => decide (p.1 = X)) = 1 := by
    unfold mergeChats
    rw [hinv]
    unfold mergeChats at hsome
    rw [if_pos hsome]
  have hkj := addContacts_keyjid now [] contacts _
    (addGroups_keyjid now [] groups _
      (addStored_keyjid [] stored _ (by intro p hp; exact absurd hp (List.not_mem_nil p))))
  have hsome1 : (mapLookup (addStored [] stored []) X).isSome = true := by
    rw [hv]
    rfl
  have hsome2 : (mapLookup (addGroups now [] groups (addStored [] stored [])) X).isSome
      = true := by
    rw [hv2]
    rfl
  have hI2a := addStored_entries [] stored X [] (by intro p hp; exact absurd hp (List.not_mem_nil p))
  have hI2b := addGroups_entries now [] groups X _ hsome1 hI2a
  have hI2c := addContacts_entries now [] contacts X _ hsome2 hI2b
  constructor
  · rw [List.countP_map]
    have hcong : ∀ p ∈ mergeChats now [] stored groups contacts,
        (((fun ci => decide (ci.jid = X)) ∘ (fun p => p.2)) p = true ↔
          (fun q => decide (q.1 = X)) p = true) := by
      intro p hp
      simp only [Function.comp_apply, decide_eq_true_eq]
      rw [hkj p hp]
    rw [List.countP_congr hcong]
    exact hcount
  · intro ci hci hx
    obtain ⟨p, hp, hpe⟩ := List.mem_map.mp hci
    have hpx : p.1 = X := by
      rw [hkj p hp, hpe, hx]
    exact hpe ▸ hI2c p hp hpx

/-- C7 (witness): the amended claim at a concrete store/directory collision. -/
theorem mergeChats_store_wins_dedup_witness :
    ((mergeChats 5 [] [c7stored] [c7group] []).map (fun p => p.2)).countP
        (fun ci => decide (ci.jid = "x@g.us".toList)) = 1 ∧
    (∀ ci ∈ (mergeChats 5 [] [c7stored] [c7group] []).map (fun p => p.2),
      ci.jid = "x@g.us".toList → ci.messagesSynced = true) :=
  mergeChats_store_wins_dedup 5 [c7stored] [c7group] [] "x@g.us".toList c7stored
    (by decide) (by decide)

/-- C8: for every chat listing that completes, the reported total is the size of
the search-filtered merged set before paging; an offset at or past the total
yields an empty data page (not an error) while the total still reflects the
pre-page count; and a limit that is ≤ 0 or ≥ the remaining page size performs no
truncation. -/
theorem listChats_pagination_spec (now : Nat) (search : Str) (limit offset : Int)
    (stored : Except Str (List StoredChat)) (groups : Except Str (List DirGroup))
    (contacts : Except Str (List DirContact)) (data : List ChatInfo)
    (pag : Pagination)
    (hrun : listChats now search limit offset stored groups contacts
      = Except.ok (data, pag)) :
    pag.total = (((mergeChats now search (okOrEmpty stored) (okOrEmpty groups)
        (okOrEmpty contacts)).map (fun p => p.2)).length : Int) ∧
    (pag.total ≤ offset → data = []) ∧
    (limit ≤ 0 →
      data = applyOffset ((mergeChats now search (okOrEmpty stored) (okOrEmpty groups)
        (okOrEmpty contacts)).map (fun p => p.2)) offset) ∧
    (((applyOffset ((mergeChats now search (okOrEmpty stored) (okOrEmpty groups)
          (okOrEmpty contacts)).map (fun p => p.2)) offset).length : Int) ≤ limit →
      data = applyOffset ((mergeChats now search (okOrEmpty stored) (okOrEmpty groups)
        (okOrEmpty contacts)).map (fun p => p.2)) offset) := by
  simp only [listChats, validateListChats, Except.ok.injEq, Prod.mk.injEq] at hrun
  obtain ⟨hdata, hpag⟩ := hrun
  subst hdata
  subst hpag
  refine ⟨rfl, ?_, ?_, ?_⟩
  · intro hoff
    rw [applyOffset_empty_of_ge _ _ hoff, applyLimit_nil]
  · intro hlim
    rw [applyLimit_of_nonpos _ _ hlim]
  · intro hlim
    rw [applyLimit_of_ge _ _ hlim]

/-- C8 (witness): at a one-chat store with offset 3 past the total and limit 0,
the total still reports 1 while the data page is empty and untruncated. -/
theorem listChats_pagination_spec_witness :
    ({ limit := 0, offset := 3, total := 1 } : Pagination).total =
      (((mergeChats 0 [] (okOrEmpty (Except.ok [c7stored])) (okOrEmpty (Except.ok []))
          (okOrEmpty (Except.ok []))).map (fun p => p.2)).length : Int) ∧
    ([] : List ChatInfo) =
      applyOffset ((mergeChats 0 [] (okOrEmpty (Except.ok [c7stored]))
        (okOrEmpty (Except.ok [])) (okOrEmpty (Except.ok []))).map (fun p => p.2)) 3 := by
  have h := listChats_pagination_spec 0 [] 0 3 (Except.ok [c7stored]) (Except.ok [])
    (Except.ok []) [] { limit := 0, offset := 3, total := 1 } (by rfl)
  exact ⟨h.1, h.2.2.1 (by decide)⟩
